
import Mathlib

/-!
Verification development for the vectorized PettingZoo parallel-environment
runners of `co_mas` (`SyncVectorParallelEnv`, `AsyncVectorParallelEnv`, and the
asynchronous worker loop `_async_parallel_env_worker`).

Python dictionaries are embedded as association lists (`List (K × V)`), whose
key-update semantics (`d[k] = v` replaces the first binding of `k` or appends a
new one) are captured by `dinsert`.  Agent identifiers are strings, environment
identifiers `env_i` are represented by their index `i`.
-/

set_option autoImplicit false

namespace CoMas

abbrev AgentID := String
abbrev EnvID := Nat

/-- First-match lookup in an association list, the embedding of `d[k]` /
`d.get(k)` on a python dict. -/
def dlookup {K V : Type} [DecidableEq K] (d : List (K × V)) (k : K) : Option V :=
  match d with
  | [] => none
  | (k', v) :: rest => if k' = k then some v else dlookup rest k

/-- Embedding of `d[k] = v` on a python dict: replace the first binding of `k`,
or append a fresh binding at the end. -/
def dinsert {K V : Type} [DecidableEq K] (d : List (K × V)) (k : K) (v : V) :
    List (K × V) :=
  match d with
  | [] => [(k, v)]
  | (k', v') :: rest => if k' = k then (k, v) :: rest else (k', v') :: dinsert rest k v

/-- Key list of an association list (the embedding of `d.keys()`). -/
def dkeys {K V : Type} (d : List (K × V)) : List K :=
  d.map Prod.fst

/-! ### Agent-major batched results

The runners build their results as two-level dicts `AgentID → EnvID → value`:
`observation = {agent: {} for agent in self.possible_agents}` followed by
`observation[agent][env_id] = value` assignments while looping over the
sub-environments, and finally `construct_batch_result_in_place`. -/

/-- A two-level agent-major mapping, the embedding of
`dict[AgentID, dict[EnvID, V]]`. -/
abbrev AgentBatch (V : Type) := List (AgentID × List (EnvID × V))

/-- Embedding of `observation[agent][env_id] = v`: update the inner dict bound
to `agent` in place.  When `agent` is not a key of the outer dict the update is
dropped (the source would raise a `KeyError`; the runners only perform the
assignment for agents drawn from a sub-environment's agent set, which the
sub-environment contract keeps inside `possible_agents`). -/
def updInner {V : Type} (a : AgentID) (e : EnvID) (v : V) :
    AgentBatch V → AgentBatch V
  | [] => []
  | (a', d') :: rest =>
    if a' = a then (a', dinsert d' e v) :: rest else (a', d') :: updInner a e v rest

/-- Record one sub-environment's contribution: `for agent in ags:
result[agent][env_id] = f agent`. -/
def recordEnv {V : Type} (e : EnvID) (ags : List AgentID) (f : AgentID → V)
    (d : AgentBatch V) : AgentBatch V :=
  ags.foldl (fun acc a => updInner a e (f a) acc) d

/-- Embedding of `{agent: {} for agent in possible_agents}`. -/
def initBatch {V : Type} (ps : List AgentID) : AgentBatch V :=
  ps.map (fun a => (a, []))

/-- The full loop over sub-environments that fills an agent-major result dict:
for each environment id `e` in `es`, record entries for the agents `recA e`
with values `f e ·`. -/
def buildBatch {V : Type} (ps : List AgentID) (es : List EnvID)
    (recA : EnvID → List AgentID) (f : EnvID → AgentID → V) : AgentBatch V :=
  es.foldl (fun d e => recordEnv e (recA e) (f e) d) (initBatch ps)

/-- Modelled from the spec: `construct_batch_result_in_place` (defined in
`co_mas/vector/vector_env.py`, which is outside the provided sources) finalises
an agent-major result; per the spec the key set of every agent's entry must
equal the environments holding that agent, and the repository's own test
harness reads results with `obs.get(agent, {})`, so agents holding no
environment are dropped from the outer dict. -/
def constructBatchResult {V : Type} (d : AgentBatch V) : AgentBatch V :=
  d.filter (fun p => !p.2.isEmpty)

/-- Two-level lookup `result[a][e]`, with a missing agent read as the empty
inner dict (`result.get(a, {})[e]`). -/
def lookup2 {V : Type} (d : AgentBatch V) (a : AgentID) (e : EnvID) : Option V :=
  dlookup ((dlookup d a).getD []) e

/-! ### The sub-environment contract

A PettingZoo parallel environment (the external collaborator the runners
drive): `reset` returns a fresh state together with the observation lookup for
the fresh agents, `step` consumes the per-agent action dict and returns the new
state together with observation / reward / termination / truncation lookups,
which the runners read at the agent set that acted (`env.agents` captured
before the step) as the parallel API prescribes.  `agentsOf` is the live agent
attribute `env.agents`. -/

structure StepOut (S O : Type) where
  state : S
  obs : AgentID → O
  rew : AgentID → Int
  term : AgentID → Bool
  trunc : AgentID → Bool

structure SubEnv (S O A : Type) where
  agentsOf : S → List AgentID
  reset : S → S × (AgentID → O)
  step : S → List (AgentID × A) → StepOut S O

/-- Modelled from the spec: `_update_envs_have_agents` (defined in
`co_mas/vector/vector_env.py`, which is outside the provided sources)
recomputes the derived index from the liveness ledger after every mutation;
per the spec, `envs_have_agents[a] = { e : a in agents[e] }`, in environment
order. -/
def envsHaveAgents (ledger : List (List AgentID)) (a : AgentID) : List EnvID :=
  (List.range ledger.length).filter (fun e => a ∈ ledger.getD e [])

/-- Partition an agent-major action batch into per-environment action dicts:
`for agent, agent_actions in actions.items(): for env_id in
envs_have_agents[agent]: env_actions[env_id][agent] = agent_actions[env_id]`
(both runners perform this projection with the current derived index). -/
def envActionsFor {A : Type} [Inhabited A] (ledger : List (List AgentID))
    (actions : List (AgentID × List (EnvID × A))) (e : EnvID) : List (AgentID × A) :=
  actions.foldl
    (fun d p => if e ∈ envsHaveAgents ledger p.1 then dinsert d p.1 ((dlookup p.2 e).getD default) else d)
    []

/-! ### SyncVectorParallelEnv -/

/-- The mutable state of a `SyncVectorParallelEnv`: the sub-environment states
(indexed by `EnvID`), the liveness ledger `self.agents`, the snapshot
`self.agents_old`, the autoreset flags `self._autoreset_envs`, the
`self._need_autoreset_envs` marks computed by `_mark_envs`, and
`self.possible_agents`. -/
structure SyncState (S : Type) where
  envs : List S
  agents : List (List AgentID)
  agentsOld : List (List AgentID)
  autoresetEnvs : List Bool
  needAutoresetEnvs : List Bool
  possibleAgents : List AgentID

/-- Per-environment slice of `SyncVectorParallelEnv.step`: which agents get
entries recorded, with which values, the new sub-environment state, and the
`reset_agents[env_id]` entry if one is produced. -/
structure EnvStepOut (S O : Type) where
  newState : S
  recAgents : List AgentID
  obsF : AgentID → O
  rewF : AgentID → Int
  termF : AgentID → Bool
  truncF : AgentID → Bool
  resetAgents : Option (List AgentID)

instance {S O : Type} [Inhabited S] [Inhabited O] : Inhabited (EnvStepOut S O) :=
  ⟨⟨default, [], fun _ => default, fun _ => 0, fun _ => false, fun _ => false, none⟩⟩

/-- The body of the per-environment loop of `SyncVectorParallelEnv.step`
(lines 272-302): an environment flagged for autoreset that needs the runner's
autoreset is reset, yielding literal `0`/`False`/`False` results for its fresh
agents; a flagged environment that carries its own autoreset wrapper is
stepped and its results recorded for the post-step agent set
(`use_reset_agents`); every other environment is stepped and its results
recorded for the pre-step agent set `env_agents = env.agents`. -/
def syncEnvStep {S O A : Type} (E : SubEnv S O A) (auto need : Bool) (s : S)
    (acts : List (AgentID × A)) : EnvStepOut S O :=
  if auto then
    if need then
      let r := E.reset s
      ⟨r.1, E.agentsOf r.1, r.2, fun _ => 0, fun _ => false, fun _ => false,
        some (E.agentsOf r.1)⟩
    else
      let out := E.step s acts
      ⟨out.state, E.agentsOf out.state, out.obs, out.rew, out.term, out.trunc,
        some (E.agentsOf out.state)⟩
  else
    let out := E.step s acts
    ⟨out.state, E.agentsOf s, out.obs, out.rew, out.term, out.trunc, none⟩

/-- The agent-major result of a `step` call (`info` is aggregated by the
base-class helper `add_info_in_place`, outside the provided sources, and is
not consulted by any of the properties below). -/
structure BatchOut (O : Type) where
  observation : AgentBatch O
  reward : AgentBatch Int
  termination : AgentBatch Bool
  truncation : AgentBatch Bool

instance {O : Type} : Inhabited (BatchOut O) := ⟨⟨[], [], [], []⟩⟩

/-- Embedding of `SyncVectorParallelEnv.step`: partition the incoming actions with the
derived index, run every sub-environment's slice in `EnvID` order, batch the
results agent-major, recompute the autoreset flags from the post-step agent
sets, snapshot `agents_old` from the pre-step ledger, update the ledger, and
override `agents_old` with `reset_agents` (`self.agents_old |= reset_agents`).
`syncEnvOut` is the slice for the sub-environment with id `e`: its autoreset
flag, its `_need_autoreset_envs` mark, its current state and its projected
actions are fed to the loop body `syncEnvStep`. -/
def syncEnvOut {S O A : Type} [Inhabited S] [Inhabited A]
    (E : SubEnv S O A) (st : SyncState S)
    (actions : List (AgentID × List (EnvID × A))) (e : EnvID) : EnvStepOut S O :=
  syncEnvStep E (st.autoresetEnvs.getD e false) (st.needAutoresetEnvs.getD e true)
    (st.envs.getD e default) (envActionsFor st.agents actions e)

def syncStep {S O A : Type} [Inhabited S] [Inhabited O] [Inhabited A]
    (E : SubEnv S O A) (st : SyncState S)
    (actions : List (AgentID × List (EnvID × A))) : SyncState S × BatchOut O :=
  let n := st.envs.length
  let oget := fun e => syncEnvOut E st actions e
  let observation := constructBatchResult
    (buildBatch st.possibleAgents (List.range n) (fun e => (oget e).recAgents)
      (fun e a => (oget e).obsF a))
  let reward := constructBatchResult
    (buildBatch st.possibleAgents (List.range n) (fun e => (oget e).recAgents)
      (fun e a => (oget e).rewF a))
  let termination := constructBatchResult
    (buildBatch st.possibleAgents (List.range n) (fun e => (oget e).recAgents)
      (fun e a => (oget e).termF a))
  let truncation := constructBatchResult
    (buildBatch st.possibleAgents (List.range n) (fun e => (oget e).recAgents)
      (fun e a => (oget e).truncF a))
  let newEnvs := (List.range n).map (fun e => (oget e).newState)
  let agents' := (List.range n).map (fun e => E.agentsOf (oget e).newState)
  let autoreset' := (List.range n).map (fun e => (E.agentsOf (oget e).newState).isEmpty)
  let agentsOld' := (List.range n).map (fun e =>
    ((oget e).resetAgents).getD (st.agents.getD e []))
  (⟨newEnvs, agents', agentsOld', autoreset', st.needAutoresetEnvs, st.possibleAgents⟩,
    ⟨observation, reward, termination, truncation⟩)

/-- Embedding of `SyncVectorParallelEnv.reset`: reset every sub-environment in `EnvID`
order, batch the observations for each environment's post-reset agent set,
rebuild the ledger, clear the autoreset flags, and finally set `agents_old`
to a copy of the fresh ledger (line 249). -/
def syncReset {S O A : Type} [Inhabited S] [Inhabited O]
    (E : SubEnv S O A) (st : SyncState S) :
    SyncState S × AgentBatch O :=
  let n := st.envs.length
  let rget := fun e => E.reset (st.envs.getD e default)
  let observation := constructBatchResult
    (buildBatch st.possibleAgents (List.range n) (fun e => E.agentsOf (rget e).1)
      (fun e a => (rget e).2 a))
  let agents' := (List.range n).map (fun e => E.agentsOf (rget e).1)
  (⟨(List.range n).map (fun e => (rget e).1), agents', agents',
    List.replicate n false, st.needAutoresetEnvs, st.possibleAgents⟩, observation)

/-! ### AsyncVectorParallelEnv -/

/-- The execution-state machine of the async runner. -/
inductive AsyncState where
  | DEFAULT
  | WAITING_RESET
  | WAITING_STEP
  | WAITING_CALL
deriving DecidableEq

/-- The value string of an `AsyncState`, the string payload used in the error conditions. -/
def AsyncState.value : AsyncState → String
  | .DEFAULT => "default"
  | .WAITING_RESET => "reset"
  | .WAITING_STEP => "step"
  | .WAITING_CALL => "call"

/-- The observable error conditions of the async runner:
`AlreadyPendingCallError` (tagged with the in-flight operation's value),
`NoAsyncCallError` (tagged with the expected operation's value), the
`TypeError` hit when a scalar worker payload is subscripted, and a re-raised
worker failure (tagged with the failing worker's index and the original
error's description). -/
inductive PyErr where
  | alreadyPendingCall (pending : String)
  | noAsyncCall (expected : String)
  | typeError
  | workerError (index : Nat) (msg : String)
deriving DecidableEq

/-- The state a worker process keeps between commands: its owned
sub-environment and its `autoreset` flag. -/
structure WorkerState (S : Type) where
  env : S
  autoreset : Bool

instance {S : Type} [Inhabited S] : Inhabited (WorkerState S) := ⟨⟨default, false⟩⟩

/-- The payload a worker pipes back for a `step` command.  When the worker's
autoreset branch ran, `fromReset` is true and the reward/terminated/truncated
slots hold the scalars `0`/`False`/`False` (not per-agent dicts); the lookup
functions below then mirror those scalars' values, but the orchestrator
subscripting a scalar is a `TypeError`. -/
structure WPayload (O : Type) where
  fromReset : Bool
  obsF : AgentID → O
  rewF : AgentID → Int
  termF : AgentID → Bool
  truncF : AgentID → Bool

instance {O : Type} [Inhabited O] : Inhabited (WPayload O) :=
  ⟨⟨false, fun _ => default, fun _ => 0, fun _ => false, fun _ => false⟩⟩

/-- The `step` command handler of `_async_parallel_env_worker` (lines
614-632): if the worker's autoreset flag is set, reset the owned environment
(ignoring the incoming action data) and report scalar `0`/`False`/`False`;
otherwise step it with the incoming action dict.  Either way the flag is
recomputed as `(len(env.agents) == 0) and need_autoreset`. -/
def workerStepCmd {S O A : Type} (E : SubEnv S O A) (need : Bool)
    (w : WorkerState S) (data : List (AgentID × A)) : WorkerState S × WPayload O :=
  if w.autoreset then
    let r := E.reset w.env
    (⟨r.1, (E.agentsOf r.1).isEmpty && need⟩,
      ⟨true, r.2, fun _ => 0, fun _ => false, fun _ => false⟩)
  else
    let out := E.step w.env data
    (⟨out.state, (E.agentsOf out.state).isEmpty && need⟩,
      ⟨false, out.obs, out.rew, out.term, out.trunc⟩)

/-- The `reset` command handler of `_async_parallel_env_worker` (lines
607-613).  In the source the statement `autoreset = False` sits inside the
`if shared_memory_observation:` block, so the flag is cleared only when
shared memory is enabled. -/
def workerResetCmd {S O A : Type} (E : SubEnv S O A) (shared : Bool)
    (w : WorkerState S) : WorkerState S × (AgentID → O) :=
  let r := E.reset w.env
  (⟨r.1, if shared then false else w.autoreset⟩, r.2)

/-- Guard of `_reset_async` (raises while another call is pending). -/
def resetAsyncCheck (s : AsyncState) : Except PyErr Unit :=
  if s = AsyncState.DEFAULT then Except.ok ()
  else Except.error (PyErr.alreadyPendingCall s.value)

/-- Guard of `_reset_await` (raises without a matching `_reset_async`). -/
def resetAwaitCheck (s : AsyncState) : Except PyErr Unit :=
  if s = AsyncState.WAITING_RESET then Except.ok ()
  else Except.error (PyErr.noAsyncCall AsyncState.WAITING_RESET.value)

/-- Guard of `_step_async` (raises while another call is pending). -/
def stepAsyncCheck (s : AsyncState) : Except PyErr Unit :=
  if s = AsyncState.DEFAULT then Except.ok ()
  else Except.error (PyErr.alreadyPendingCall s.value)

/-- Guard of `_step_await` (raises without a matching `_step_async`). -/
def stepAwaitCheck (s : AsyncState) : Except PyErr Unit :=
  if s = AsyncState.WAITING_STEP then Except.ok ()
  else Except.error (PyErr.noAsyncCall AsyncState.WAITING_STEP.value)

/-- Guard of `_call_async` (raises while another call is pending). -/
def callAsyncCheck (s : AsyncState) : Except PyErr Unit :=
  if s = AsyncState.DEFAULT then Except.ok ()
  else Except.error (PyErr.alreadyPendingCall s.value)

/-- Guard of `_call_wait` (raises without a matching `_call_async`). -/
def callAwaitCheck (s : AsyncState) : Except PyErr Unit :=
  if s = AsyncState.WAITING_CALL then Except.ok ()
  else Except.error (PyErr.noAsyncCall AsyncState.WAITING_CALL.value)

/-- The orchestrator-side state of an `AsyncVectorParallelEnv`: the worker
states (conceptually remote), the liveness ledger, `agents_old`, the
execution state, and `possible_agents`. -/
structure AsyncOrch (S : Type) where
  workers : List (WorkerState S)
  agents : List (List AgentID)
  agentsOld : List (List AgentID)
  astate : AsyncState
  possibleAgents : List AgentID

/-- Detects the `TypeError` of `_step_await`: an environment whose worker ran
its autoreset branch piped back scalar reward/terminated/truncated values, and
the orchestrator's loop `for agent in self.agents[env_id]` subscripts them
(`rew[agent]`) as soon as that (stale, pre-step) ledger entry is non-empty.
The raise aborts the call before anything is returned, so the model performs
the check up front. -/
def asyncStepCrash {O : Type} [Inhabited O] (payloads : List (WPayload O))
    (ledger : List (List AgentID)) (n : Nat) : Bool :=
  (List.range n).any (fun i =>
    (payloads.getD i default).fromReset && !(ledger.getD i []).isEmpty)

/-- The per-worker exchange of one collective `step` (`_step_async` partitions
the actions with the derived index): worker `i` executes its `step` command on
the actions projected for environment `i`. -/
def asyncStepPair {S O A : Type} [Inhabited S] [Inhabited O] [Inhabited A]
    (E : SubEnv S O A) (need : List Bool) (st : AsyncOrch S)
    (actions : List (AgentID × List (EnvID × A))) (i : Nat) :
    WorkerState S × WPayload O :=
  workerStepCmd E (need.getD i true) (st.workers.getD i default)
    (envActionsFor st.agents actions i)

/-- The successful branch of a collective `step`: collect each environment's
results for the agents of the pre-call ledger entry `self.agents[env_id]`
(with shared memory the observation is read from the worker's own slot `i`,
which holds exactly the values that worker just wrote), batch agent-major,
snapshot `agents_old` from the pre-call ledger, and refresh the ledger from
the workers' post-command agent sets (`_update_agents`). -/
def asyncStepBody {S O A : Type} [Inhabited S] [Inhabited O] [Inhabited A]
    (E : SubEnv S O A) (need : List Bool) (st : AsyncOrch S)
    (actions : List (AgentID × List (EnvID × A))) :
    AsyncOrch S × BatchOut O :=
  let n := st.workers.length
  let workers' := (List.range n).map (fun i => (asyncStepPair E need st actions i).1)
  let pl := fun i => (asyncStepPair E need st actions i).2
  let recA := fun e => st.agents.getD e []
  let observation := constructBatchResult
    (buildBatch st.possibleAgents (List.range n) recA (fun e a => (pl e).obsF a))
  let reward := constructBatchResult
    (buildBatch st.possibleAgents (List.range n) recA (fun e a => (pl e).rewF a))
  let termination := constructBatchResult
    (buildBatch st.possibleAgents (List.range n) recA (fun e a => (pl e).termF a))
  let truncation := constructBatchResult
    (buildBatch st.possibleAgents (List.range n) recA (fun e a => (pl e).truncF a))
  let agents' := (List.range n).map (fun i => E.agentsOf (asyncStepPair E need st actions i).1.env)
  (⟨workers', agents', st.agents, AsyncState.DEFAULT, st.possibleAgents⟩,
    ⟨observation, reward, termination, truncation⟩)

/-- Embedding of `AsyncVectorParallelEnv.step` (`_step_async` followed by
`_step_await`) in the run where every worker responds successfully. -/
def asyncStep {S O A : Type} [Inhabited S] [Inhabited O] [Inhabited A]
    (E : SubEnv S O A) (need : List Bool) (st : AsyncOrch S)
    (actions : List (AgentID × List (EnvID × A))) :
    Except PyErr (AsyncOrch S × BatchOut O) :=
  match stepAsyncCheck st.astate with
  | Except.error err => Except.error err
  | Except.ok _ =>
    let n := st.workers.length
    let payloads := (List.range n).map (fun i => (asyncStepPair E need st actions i).2)
    if asyncStepCrash payloads st.agents n then Except.error PyErr.typeError
    else Except.ok (asyncStepBody E need st actions)

/-- Embedding of `AsyncVectorParallelEnv.reset` (`_reset_async` followed by
`_reset_await`) in the run where every worker responds successfully: every worker executes its
`reset` command, the orchestrator refreshes the ledger (`_update_agents`),
sets `agents_old` to empty lists, and collects each environment's observation
for its post-reset agent set.  When shared memory is enabled the source reads
`self.observations[i]` where `i` is the loop variable left over from the
earlier receive loop, which at this point equals `num_envs - 1`: every
environment's entry therefore reads the LAST shared-memory slot. -/
def asyncResetBody {S O A : Type} [Inhabited S] [Inhabited O]
    (E : SubEnv S O A) (shared : Bool) (st : AsyncOrch S) :
    AsyncOrch S × AgentBatch O :=
  let n := st.workers.length
  let rget := fun i => workerResetCmd (O := O) E shared (st.workers.getD i default)
  let workers' := (List.range n).map (fun i => (rget i).1)
  let slots := (List.range n).map (fun i => (rget i).2)
  let agents' := (List.range n).map (fun i => E.agentsOf (rget i).1.env)
  let observation := constructBatchResult
    (buildBatch st.possibleAgents (List.range n) (fun e => agents'.getD e [])
      (fun e a =>
        if shared then (slots.getD (n - 1) (fun _ => default)) a
        else (slots.getD e (fun _ => default)) a))
  (⟨workers', agents', List.replicate n [], AsyncState.DEFAULT, st.possibleAgents⟩,
    observation)

/-- Embedding of `AsyncVectorParallelEnv.reset` in the run where every worker
responds successfully. -/
def asyncReset {S O A : Type} [Inhabited S] [Inhabited O]
    (E : SubEnv S O A) (shared : Bool) (st : AsyncOrch S) :
    Except PyErr (AsyncOrch S × AgentBatch O) :=
  match resetAsyncCheck st.astate with
  | Except.error err => Except.error err
  | Except.ok _ => Except.ok (asyncResetBody E shared st)

/-! ### The failure path (`_raise_if_errors` and the await handlers) -/

/-- Embedding of `num_errors = self.num_envs - sum(successes)`. -/
def numErrors (successes : List Bool) : Nat :=
  successes.length - successes.count true

/-- The entries `_raise_if_errors` pulls from the shared error queue: one
`self.error_queue.get()` per failed worker. -/
def drainErrors (queue : List (Nat × String)) (successes : List Bool) :
    List (Nat × String) :=
  queue.take (numErrors successes)

/-- Embedding of `_raise_if_errors`: return normally when every worker succeeded; otherwise
drain one error-queue entry per failed worker (each tagged with the failing
worker's index and the original error) and re-raise the last drained one.
When the queue holds fewer entries than there are failures the source would
block forever on `Queue.get`; that non-terminating behaviour is outside this
model, which is only consulted with one queue entry per failure. -/
def raiseIfErrors (queue : List (Nat × String)) (successes : List Bool) :
    Except PyErr Unit :=
  if numErrors successes = 0 then Except.ok ()
  else
    match (drainErrors queue successes).getLast? with
    | some p => Except.error (PyErr.workerError p.1 p.2)
    | none => Except.ok ()

/-- Embedding of `_reset_await` with explicit per-worker responses (`none` models a worker
that piped back `(None, False)` after hitting an exception): partial results
are collected for the successful workers, then `_raise_if_errors(successes)`
discards them and re-raises when any worker failed. -/
def resetAwaitOutcome {S O : Type} [Inhabited O] (st : AsyncOrch S)
    (responses : List (Option (AgentID → O))) (queue : List (Nat × String)) :
    Except PyErr (AgentBatch O) :=
  match resetAwaitCheck st.astate with
  | Except.error err => Except.error err
  | Except.ok _ =>
    let successes := responses.map Option.isSome
    match raiseIfErrors queue successes with
    | Except.error err => Except.error err
    | Except.ok _ =>
      let n := st.workers.length
      Except.ok (constructBatchResult
        (buildBatch st.possibleAgents (List.range n) (fun e => st.agents.getD e [])
          (fun e a => ((responses.getD e none).getD (fun _ => default)) a)))

/-- Embedding of `_step_await` with explicit per-worker responses.  Unlike `_reset_await`
and `_call_wait`, the source records the success flags but never calls
`_raise_if_errors` on them: a failed worker's results are silently skipped and
the call proceeds (in the source the subsequent `_update_agents` then trips
over the dead worker's closed pipe, an operating-system effect outside this
model); the error queue is not consulted. -/
def stepAwaitOutcome {S O : Type} [Inhabited O] (st : AsyncOrch S)
    (responses : List (Option (WPayload O))) (_queue : List (Nat × String)) :
    Except PyErr (BatchOut O) :=
  match stepAwaitCheck st.astate with
  | Except.error err => Except.error err
  | Except.ok _ =>
    let n := st.workers.length
    let okEnv := fun i => (responses.getD i none).isSome
    let pl := fun i => (responses.getD i none).getD default
    let recA := fun e => if okEnv e then st.agents.getD e [] else []
    if (List.range n).any (fun i =>
        okEnv i && (pl i).fromReset && !(st.agents.getD i []).isEmpty) then
      Except.error PyErr.typeError
    else
      Except.ok
        ⟨constructBatchResult
            (buildBatch st.possibleAgents (List.range n) recA (fun e a => (pl e).obsF a)),
          constructBatchResult
            (buildBatch st.possibleAgents (List.range n) recA (fun e a => (pl e).rewF a)),
          constructBatchResult
            (buildBatch st.possibleAgents (List.range n) recA (fun e a => (pl e).termF a)),
          constructBatchResult
            (buildBatch st.possibleAgents (List.range n) recA (fun e a => (pl e).truncF a))⟩

/-- Embedding of `_call_wait` with explicit per-worker responses: collect the results,
`_raise_if_errors(successes)`, and return `dict(zip(env_ids, results))`. -/
def callOutcome {S : Type} (st : AsyncOrch S) (results : List (Option Int))
    (queue : List (Nat × String)) : Except PyErr (List (EnvID × Int)) :=
  match callAwaitCheck st.astate with
  | Except.error err => Except.error err
  | Except.ok _ =>
    let successes := results.map Option.isSome
    match raiseIfErrors queue successes with
    | Except.error err => Except.error err
    | Except.ok _ =>
      Except.ok ((List.range st.workers.length).map
        (fun i => (i, (results.getD i none).getD 0)))

/-- Convenience: whether an `Except` result is a success. -/
def exceptIsOk {ε α : Type} : Except ε α → Bool
  | Except.ok _ => true
  | Except.error _ => false

/-! ### The worker's wrapper-chain walk and `_mark_envs` -/

/-- A sub-environment handle as the worker receives it: either a bare
environment or a wrapper holding an inner environment (`hasattr(env, "env")`),
where the flag records whether the wrapper `isinstance`-matches
`AutoResetParallelEnvWrapper` (that wrapper class lives in
`co_mas/wrappers/__init__.py`, outside the provided sources; only its role as
an `isinstance` marker matters here). -/
inductive PyEnv (S : Type) where
  | base (s : S)
  | wrap (isAutoResetWrapper : Bool) (inner : PyEnv S)
deriving DecidableEq

/-- The wrapper-chain walk at the top of `_async_parallel_env_worker` (lines
594-598): `need_autoreset = True; while hasattr(env, "env"): if
isinstance(env, AutoResetParallelEnvWrapper): need_autoreset = False;
env = env.env`.  It returns the final value of `need_autoreset` together with
the final binding of the variable `env` — the walk reassigns `env` at every
level, so the binding left behind is the innermost, fully unwrapped
environment. -/
def walkChain {S : Type} : PyEnv S → Bool → Bool × PyEnv S
  | PyEnv.base s, need => (need, PyEnv.base s)
  | PyEnv.wrap f inner, need => walkChain inner (need && !f)

/-- The worker's marking step: initial `need_autoreset = True`. -/
def workerMark {S : Type} (chain : PyEnv S) : Bool × PyEnv S :=
  walkChain chain true

/-- Embedding of `SyncVectorParallelEnv._mark_envs._mark_env`: it walks the same chain through
a local variable, so it computes the same flag but leaves the runner's
environment handle untouched. -/
def syncMarkEnv {S : Type} (chain : PyEnv S) : Bool :=
  (workerMark chain).1

/-! ### SyncVectorParallelEnv.__getattr__ -/

/-- A sub-environment's attribute namespace, for `hasattr`/`getattr`. -/
structure SubEnvAttrs where
  attrs : List (String × Int)

/-- Embedding of `hasattr(env, name)`. -/
def pyHasattr (o : SubEnvAttrs) (name : String) : Bool :=
  (dlookup o.attrs name).isSome

/-- Embedding of `getattr(env, name)` (only read after a `hasattr` check in the source). -/
def pyGetattrVal (o : SubEnvAttrs) (name : String) : Int :=
  (dlookup o.attrs name).getD 0

/-- The observable outcome of `SyncVectorParallelEnv.__getattr__`. -/
inductive GetattrOutcome where
  | tupleOf (vs : List Int)
  | attributeError
deriving DecidableEq

/-- Embedding of `name.startswith("_")`: whether the first character is an underscore. -/
def startsWithUnderscore (name : String) : Bool :=
  match name.data with
  | [] => false
  | c :: _ => c = '_'

/-- Embedding of `SyncVectorParallelEnv.__getattr__` (lines 347-358): names starting with
an underscore raise; `"state_spaces"` raises; otherwise, if the name is not
`"envs"` and every sub-environment has the attribute, the per-environment
values are returned as a tuple; in every other case an `AttributeError` is
raised. -/
def syncGetattr (envs : List SubEnvAttrs) (name : String) : GetattrOutcome :=
  if startsWithUnderscore name then GetattrOutcome.attributeError
  else if name = "state_spaces" then GetattrOutcome.attributeError
  else if name ≠ "envs" ∧ envs.all (fun o => pyHasattr o name) then
    GetattrOutcome.tupleOf (envs.map (fun o => pyGetattrVal o name))
  else GetattrOutcome.attributeError

/-! ### Result-extraction helpers and concrete scenarios -/

instance {S : Type} : Inhabited (AsyncOrch S) :=
  ⟨⟨[], [], [], AsyncState.DEFAULT, []⟩⟩

/-- Extract the success value of an `Except` result (defaulting when it is an
error; only read alongside a proof or check that the result is a success). -/
def okOf {ε α : Type} [Inhabited α] : Except ε α → α
  | Except.ok a => a
  | Except.error _ => default

/-- Extract the error of an `Except` result, if any. -/
def exceptErrOf {ε α : Type} : Except ε α → Option ε
  | Except.ok _ => none
  | Except.error err => some err

/-- A concrete single-agent sub-environment whose agent `p0` terminates on the
first step: state `0` is the fresh episode (agent set `["p0"]`), any later
state is past the episode end (empty agent set). -/
def toyDying : SubEnv Nat Nat Nat where
  agentsOf := fun s => if s = 0 then ["p0"] else []
  reset := fun _ => (0, fun _ => 100)
  step := fun s _ => ⟨s + 1, fun _ => 7, fun _ => 1, fun _ => true, fun _ => false⟩

/-- A concrete single-agent sub-environment whose agent `p0` never leaves and
whose observations reveal the state, so distinct instances are telling. -/
def toyLive : SubEnv Nat Nat Nat where
  agentsOf := fun _ => ["p0"]
  reset := fun s => (s, fun _ => s + 100)
  step := fun s _ => ⟨s, fun _ => s + 100, fun _ => 0, fun _ => false, fun _ => false⟩

/-- Sync scenario: one sub-environment, freshly reset (state `0`, agent
alive), not flagged for autoreset. -/
def syncAlive : SyncState Nat :=
  ⟨[0], [["p0"]], [["p0"]], [false], [true], ["p0"]⟩

/-- Sync scenario: one sub-environment past its episode end (state `1`, empty
agent set) and flagged for autoreset. -/
def syncFlagged : SyncState Nat :=
  ⟨[1], [[]], [[]], [true], [true], ["p0"]⟩

/-- Async scenario: one worker whose autoreset flag is set after its episode
ended; the orchestrator's ledger entry for it is (correctly) empty. -/
def orchFlagged : AsyncOrch Nat :=
  ⟨[⟨3, true⟩], [[]], [[]], AsyncState.DEFAULT, ["p0"]⟩

/-- Async scenario: one live worker in state `0`, idle orchestrator. -/
def orchOne : AsyncOrch Nat :=
  ⟨[⟨0, false⟩], [["p0"]], [["p0"]], AsyncState.DEFAULT, ["p0"]⟩

/-- Async scenario: two live workers in distinct states (`0` and `1`), idle
orchestrator. -/
def orchTwo : AsyncOrch Nat :=
  ⟨[⟨0, false⟩, ⟨1, false⟩], [["p0"], ["p0"]], [["p0"], ["p0"]], AsyncState.DEFAULT, ["p0"]⟩

/-- Async scenario: two workers, awaiting a pending `reset`. -/
def orchAwaitReset : AsyncOrch Nat :=
  ⟨[⟨0, false⟩, ⟨1, false⟩], [["p0"], ["p0"]], [[], []], AsyncState.WAITING_RESET, ["p0"]⟩

/-- Async scenario: two workers, awaiting a pending `step`. -/
def orchAwaitStep : AsyncOrch Nat :=
  ⟨[⟨0, false⟩, ⟨1, false⟩], [["p0"], ["p0"]], [[], []], AsyncState.WAITING_STEP, ["p0"]⟩

/-- Async scenario: two workers, awaiting a pending `call`. -/
def orchAwaitCall : AsyncOrch Nat :=
  ⟨[⟨0, false⟩, ⟨1, false⟩], [["p0"], ["p0"]], [[], []], AsyncState.WAITING_CALL, ["p0"]⟩

/-- An error queue holding the single failed worker's tagged exception. -/
def failQueue : List (Nat × String) := [(0, "RuntimeError: boom")]

/-- A successful worker's step payload for the failure scenarios. -/
def okPayload : WPayload Nat :=
  ⟨false, fun _ => 0, fun _ => 0, fun _ => false, fun _ => false⟩

/-! ### Supporting lemmas -/

theorem dlookup_dinsert {K V : Type} [DecidableEq K] (d : List (K × V)) (k k' : K) (v : V) :
    dlookup (dinsert d k v) k' = if k' = k then some v else dlookup d k' := by
  induction d with
  | nil =>
    by_cases h : k' = k
    · simp_all [dinsert, dlookup]
    · simp [dinsert, dlookup, h, Ne.symm h]
  | cons p rest ih =>
    obtain ⟨a, b⟩ := p
    by_cases hak : a = k <;> by_cases h : k' = k <;> by_cases hab : a = k' <;>
      simp_all [dinsert, dlookup]

theorem dinsert_dinsert_same {K V : Type} [DecidableEq K] (d : List (K × V)) (k : K) (v : V) :
    dinsert (dinsert d k v) k v = dinsert d k v := by
  induction d with
  | nil => simp [dinsert]
  | cons p rest ih =>
    obtain ⟨a, b⟩ := p
    by_cases hak : a = k <;> simp [dinsert, hak, ih]

theorem mem_dkeys_iff_isSome {K V : Type} [DecidableEq K] (d : List (K × V)) (k : K) :
    k ∈ dkeys d ↔ (dlookup d k).isSome := by
  induction d with
  | nil => simp [dkeys, dlookup]
  | cons p rest ih =>
    obtain ⟨a, b⟩ := p
    by_cases h : a = k
    · subst h; simp [dkeys, dlookup]
    · simp_all [dkeys, dlookup, Ne.symm h]

theorem dlookup_eq_none_of_not_mem_dkeys {K V : Type} [DecidableEq K]
    (d : List (K × V)) (k : K) (h : k ∉ dkeys d) : dlookup d k = none := by
  have := (mem_dkeys_iff_isSome d k).not.mp h
  cases hl : dlookup d k with
  | none => rfl
  | some v => rw [hl] at this; simp at this

theorem dlookup_updInner {V : Type} (a a' : AgentID) (e : EnvID) (v : V) (d : AgentBatch V) :
    dlookup (updInner a e v d) a' =
      if a' = a then (dlookup d a).map (fun inner => dinsert inner e v)
      else dlookup d a' := by
  induction d with
  | nil => by_cases h : a' = a <;> simp [updInner, dlookup, h]
  | cons p rest ih =>
    obtain ⟨b, db⟩ := p
    by_cases hba : b = a <;> by_cases hba' : b = a' <;> by_cases h : a' = a <;>
      simp_all [updInner, dlookup]

theorem dkeys_updInner {V : Type} (a : AgentID) (e : EnvID) (v : V) (d : AgentBatch V) :
    dkeys (updInner a e v d) = dkeys d := by
  induction d with
  | nil => rfl
  | cons p rest ih =>
    obtain ⟨b, db⟩ := p
    by_cases hba : b = a <;> simp_all [updInner, dkeys]

theorem dlookup_recordEnv {V : Type} (e : EnvID) (ags : List AgentID) (f : AgentID → V)
    (d : AgentBatch V) (a : AgentID) :
    dlookup (recordEnv e ags f d) a =
      if a ∈ ags then (dlookup d a).map (fun inner => dinsert inner e (f a))
      else dlookup d a := by
  induction ags generalizing d with
  | nil => simp [recordEnv]
  | cons b rest ih =>
    have hstep : recordEnv e (b :: rest) f d = recordEnv e rest f (updInner b e (f b) d) := rfl
    rw [hstep, ih]
    by_cases hab : a = b
    · subst hab
      by_cases hmem : a ∈ rest
      · simp [hmem, dlookup_updInner]
        cases dlookup d a with
        | none => simp
        | some inner => simp [dinsert_dinsert_same]
      · simp [hmem, dlookup_updInner]
    · by_cases hmem : a ∈ rest <;> simp [hmem, hab, dlookup_updInner]

theorem dkeys_recordEnv {V : Type} (e : EnvID) (ags : List AgentID) (f : AgentID → V)
    (d : AgentBatch V) : dkeys (recordEnv e ags f d) = dkeys d := by
  induction ags generalizing d with
  | nil => rfl
  | cons b rest ih =>
    have hstep : recordEnv e (b :: rest) f d = recordEnv e rest f (updInner b e (f b) d) := rfl
    rw [hstep, ih, dkeys_updInner]

theorem isSome_dlookup_recordEnv {V : Type} (e : EnvID) (ags : List AgentID)
    (f : AgentID → V) (d : AgentBatch V) (a : AgentID) :
    (dlookup (recordEnv e ags f d) a).isSome = (dlookup d a).isSome := by
  rw [dlookup_recordEnv]
  by_cases hmem : a ∈ ags <;> simp [hmem]

theorem lookup2_foldRecord {V : Type} (es : List EnvID)
    (recA : EnvID → List AgentID) (f : EnvID → AgentID → V) (d : AgentBatch V)
    (a : AgentID) (e : EnvID) (hnd : es.Nodup) :
    lookup2 (es.foldl (fun acc e' => recordEnv e' (recA e') (f e') acc) d) a e =
      if e ∈ es ∧ a ∈ recA e ∧ (dlookup d a).isSome then some (f e a)
      else lookup2 d a e := by
  induction es generalizing d with
  | nil => simp
  | cons e0 rest ih =>
    have hnd' : rest.Nodup := (List.nodup_cons.mp hnd).2
    have hne0 : e0 ∉ rest := (List.nodup_cons.mp hnd).1
    have hstep :
        (e0 :: rest).foldl (fun acc e' => recordEnv e' (recA e') (f e') acc) d =
          rest.foldl (fun acc e' => recordEnv e' (recA e') (f e') acc)
            (recordEnv e0 (recA e0) (f e0) d) := rfl
    rw [hstep, ih _ hnd']
    rw [isSome_dlookup_recordEnv]
    by_cases hrest : e ∈ rest
    · have hee0 : e ≠ e0 := fun h => hne0 (h ▸ hrest)
      by_cases hca : a ∈ recA e ∧ (dlookup d a).isSome
      · simp [hrest, hca.1, hca.2]
      · rw [if_neg (fun hh => hca ⟨hh.2.1, hh.2.2⟩), if_neg (fun hh => hca ⟨hh.2.1, hh.2.2⟩)]
        unfold lookup2
        rw [dlookup_recordEnv]
        by_cases ha0 : a ∈ recA e0
        · simp only [ha0, if_pos]
          cases dlookup d a with
          | none => simp
          | some inner => simp [dlookup_dinsert, hee0]
        · simp [ha0]
    · by_cases he0 : e = e0
      · subst he0
        rw [if_neg (fun hh => hrest hh.1)]
        unfold lookup2
        rw [dlookup_recordEnv]
        by_cases ha0 : a ∈ recA e
        · cases hda : dlookup d a with
          | none => simp [ha0, hda, hrest]
          | some inner => simp [ha0, hda, dlookup_dinsert, hrest]
        · simp [ha0, hrest]
      · have : e ∉ e0 :: rest := by
          intro hmem
          rcases List.mem_cons.mp hmem with h | h
          · exact he0 h
          · exact hrest h
        rw [if_neg (fun hh => hrest hh.1), if_neg (fun hh => this hh.1)]
        unfold lookup2
        rw [dlookup_recordEnv]
        by_cases ha0 : a ∈ recA e0
        · cases dlookup d a with
          | none => simp [ha0]
          | some inner => simp [ha0, dlookup_dinsert, he0]
        · simp [ha0]

theorem dlookup_initBatch {V : Type} (ps : List AgentID) (a : AgentID) :
    dlookup (initBatch (V := V) ps) a = if a ∈ ps then some [] else none := by
  induction ps with
  | nil => simp [initBatch, dlookup]
  | cons b rest ih =>
    by_cases h : b = a
    · subst h; simp [initBatch, dlookup]
    · simp_all [initBatch, dlookup, Ne.symm h]

theorem lookup2_buildBatch {V : Type} (ps : List AgentID) (es : List EnvID)
    (recA : EnvID → List AgentID) (f : EnvID → AgentID → V)
    (a : AgentID) (e : EnvID) (hnd : es.Nodup) :
    lookup2 (buildBatch ps es recA f) a e =
      if e ∈ es ∧ a ∈ recA e ∧ a ∈ ps then some (f e a) else none := by
  unfold buildBatch
  rw [lookup2_foldRecord _ _ _ _ _ _ hnd, dlookup_initBatch]
  have hinit : lookup2 (initBatch (V := V) ps) a e = none := by
    unfold lookup2
    rw [dlookup_initBatch]
    by_cases h : a ∈ ps <;> simp [h, dlookup]
  by_cases hps : a ∈ ps
  · have h2 : (dlookup (initBatch (V := V) ps) a).isSome = true := by
      rw [dlookup_initBatch, if_pos hps]; rfl
    simp [h2, hps, hinit]
  · have h2 : (dlookup (initBatch (V := V) ps) a).isSome = false := by
      rw [dlookup_initBatch, if_neg hps]; rfl
    simp [h2, hps, hinit]

theorem dkeys_buildBatch {V : Type} (ps : List AgentID) (es : List EnvID)
    (recA : EnvID → List AgentID) (f : EnvID → AgentID → V) :
    dkeys (buildBatch ps es recA f) = ps := by
  unfold buildBatch
  have : ∀ d : AgentBatch V,
      dkeys (es.foldl (fun acc e' => recordEnv e' (recA e') (f e') acc) d) = dkeys d := by
    induction es with
    | nil => intro d; rfl
    | cons e0 rest ih =>
      intro d
      have hstep :
          (e0 :: rest).foldl (fun acc e' => recordEnv e' (recA e') (f e') acc) d =
            rest.foldl (fun acc e' => recordEnv e' (recA e') (f e') acc)
              (recordEnv e0 (recA e0) (f e0) d) := rfl
      rw [hstep, ih, dkeys_recordEnv]
  rw [this]
  induction ps with
  | nil => rfl
  | cons b rest ih => simp_all [initBatch, dkeys]

theorem lookup2_constructBatchResult {V : Type} (d : AgentBatch V)
    (hnd : (dkeys d).Nodup) (a : AgentID) (e : EnvID) :
    lookup2 (constructBatchResult d) a e = lookup2 d a e := by
  induction d with
  | nil => rfl
  | cons p rest ih =>
    obtain ⟨b, db⟩ := p
    have hnd' : (dkeys rest).Nodup := (List.nodup_cons.mp hnd).2
    have hb : b ∉ dkeys rest := (List.nodup_cons.mp hnd).1
    by_cases hba : b = a
    · subst hba
      cases hdb : db.isEmpty
      · simp [constructBatchResult, lookup2, dlookup, hdb]
      · have hdbnil : db = [] := List.isEmpty_iff.mp hdb
        have hrest : dlookup (constructBatchResult rest) b = none := by
          apply dlookup_eq_none_of_not_mem_dkeys
          intro hmem
          apply hb
          have : dkeys (constructBatchResult rest) ⊆ dkeys rest := by
            intro x hx
            unfold constructBatchResult at hx
            unfold dkeys at hx ⊢
            rcases List.mem_map.mp hx with ⟨q, hq, hqx⟩
            exact List.mem_map.mpr ⟨q, List.mem_of_mem_filter hq, hqx⟩
          exact this hmem
        simp only [constructBatchResult] at hrest
        simp [constructBatchResult, lookup2, dlookup, hdb, hdbnil, hrest]
    · have h1 : lookup2 ((b, db) :: rest) a e = lookup2 rest a e := by
        simp [lookup2, dlookup, hba]
      cases hdb : db.isEmpty
      · have : constructBatchResult ((b, db) :: rest) = (b, db) :: constructBatchResult rest := by
          simp [constructBatchResult, hdb]
        rw [this, h1]
        have : lookup2 ((b, db) :: constructBatchResult rest) a e =
            lookup2 (constructBatchResult rest) a e := by
          simp [lookup2, dlookup, hba]
        rw [this, ih hnd']
      · have : constructBatchResult ((b, db) :: rest) = constructBatchResult rest := by
          simp [constructBatchResult, hdb]
        rw [this, h1, ih hnd']

theorem dkeys_mem_lookup2 {V : Type} (d : AgentBatch V) (a : AgentID) (e : EnvID) :
    e ∈ dkeys ((dlookup d a).getD []) ↔ (lookup2 d a e).isSome := by
  unfold lookup2
  exact mem_dkeys_iff_isSome _ _

theorem getD_map_range {α : Type} (n : Nat) (g : Nat → α) (d : α) (e : Nat) (h : e < n) :
    ((List.range n).map g).getD e d = g e := by
  rw [List.getD_eq_getElem?_getD]
  rw [List.getElem?_map, List.getElem?_range h]
  rfl

theorem getD_out_of_range {α : Type} (l : List α) (d : α) (e : Nat) (h : l.length ≤ e) :
    l.getD e d = d :=
  List.getD_eq_default _ _ h

theorem mem_envsHaveAgents (ledger : List (List AgentID)) (a : AgentID) (e : EnvID) :
    e ∈ envsHaveAgents ledger a ↔ a ∈ ledger.getD e [] := by
  unfold envsHaveAgents
  rw [List.mem_filter, List.mem_range]
  constructor
  · intro ⟨_, h⟩
    exact of_decide_eq_true h
  · intro h
    have hlt : e < ledger.length := by
      by_contra hge
      rw [getD_out_of_range _ _ _ (Nat.le_of_not_lt hge)] at h
      simp at h
    exact ⟨hlt, decide_eq_true h⟩

theorem lookup2_cbr_buildBatch {V : Type} (ps : List AgentID) (es : List EnvID)
    (recA : EnvID → List AgentID) (f : EnvID → AgentID → V) (a : AgentID) (e : EnvID)
    (hps : ps.Nodup) (hes : es.Nodup) :
    lookup2 (constructBatchResult (buildBatch ps es recA f)) a e =
      if e ∈ es ∧ a ∈ recA e ∧ a ∈ ps then some (f e a) else none := by
  rw [lookup2_constructBatchResult _ (by rw [dkeys_buildBatch]; exact hps),
    lookup2_buildBatch _ _ _ _ _ _ hes]

theorem workerStepCmd_fromReset {S O A : Type} (E : SubEnv S O A) (need : Bool)
    (w : WorkerState S) (data : List (AgentID × A)) :
    ((workerStepCmd (O := O) E need w data).2).fromReset = w.autoreset := by
  unfold workerStepCmd
  cases h : w.autoreset <;> simp

theorem syncEnvStep_reset_branch {S O A : Type} (E : SubEnv S O A) (s : S)
    (acts : List (AgentID × A)) :
    syncEnvStep E true true s acts =
      ⟨(E.reset s).1, E.agentsOf (E.reset s).1, (E.reset s).2, fun _ => 0,
        fun _ => false, fun _ => false, some (E.agentsOf (E.reset s).1)⟩ := rfl

theorem syncEnvStep_resetAgents_getD {S O A : Type} (E : SubEnv S O A)
    (auto need : Bool) (s : S) (acts : List (AgentID × A)) :
    ((syncEnvStep E auto need s acts).resetAgents).getD (E.agentsOf s) =
      (syncEnvStep E auto need s acts).recAgents := by
  unfold syncEnvStep
  cases auto <;> cases need <;> simp

theorem syncEnvStep_resetAgents_if {S O A : Type} (E : SubEnv S O A)
    (auto need : Bool) (s : S) (acts : List (AgentID × A)) (X : List AgentID) :
    ((syncEnvStep E auto need s acts).resetAgents).getD X =
      if auto then E.agentsOf (syncEnvStep E auto need s acts).newState else X := by
  unfold syncEnvStep
  cases auto <;> cases need <;> simp

theorem syncEnvStep_recAgents_subset {S O A : Type} (E : SubEnv S O A)
    (ps : List AgentID) (hsub : ∀ s : S, E.agentsOf s ⊆ ps)
    (auto need : Bool) (s : S) (acts : List (AgentID × A)) :
    (syncEnvStep E auto need s acts).recAgents ⊆ ps := by
  unfold syncEnvStep
  cases auto <;> cases need <;> simp <;> apply hsub

theorem syncStep_envs_getD {S O A : Type} [Inhabited S] [Inhabited O] [Inhabited A]
    (E : SubEnv S O A) (st : SyncState S)
    (actions : List (AgentID × List (EnvID × A))) (e : EnvID) (he : e < st.envs.length) :
    (syncStep E st actions).1.envs.getD e default = (syncEnvOut E st actions e).newState := by
  have h : (syncStep E st actions).1.envs =
      (List.range st.envs.length).map (fun e => (syncEnvOut E st actions e).newState) := rfl
  rw [h, getD_map_range _ _ _ _ he]

theorem syncStep_agentsOld_getD {S O A : Type} [Inhabited S] [Inhabited O] [Inhabited A]
    (E : SubEnv S O A) (st : SyncState S)
    (actions : List (AgentID × List (EnvID × A))) (e : EnvID) (he : e < st.envs.length) :
    (syncStep E st actions).1.agentsOld.getD e [] =
      ((syncEnvOut E st actions e).resetAgents).getD (st.agents.getD e []) := by
  have h : (syncStep E st actions).1.agentsOld =
      (List.range st.envs.length).map (fun e =>
        ((syncEnvOut E st actions e).resetAgents).getD (st.agents.getD e [])) := rfl
  rw [h, getD_map_range _ _ _ _ he]

theorem syncStep_agentsOld_getD_oob {S O A : Type} [Inhabited S] [Inhabited O] [Inhabited A]
    (E : SubEnv S O A) (st : SyncState S)
    (actions : List (AgentID × List (EnvID × A))) (e : EnvID) (he : st.envs.length ≤ e) :
    (syncStep E st actions).1.agentsOld.getD e [] = [] := by
  have h : (syncStep E st actions).1.agentsOld =
      (List.range st.envs.length).map (fun e =>
        ((syncEnvOut E st actions e).resetAgents).getD (st.agents.getD e [])) := rfl
  rw [h, getD_out_of_range]
  simpa using he

theorem syncStep_observation_keyset {S O A : Type} [Inhabited S] [Inhabited O] [Inhabited A]
    (E : SubEnv S O A) (st : SyncState S)
    (actions : List (AgentID × List (EnvID × A))) (a : AgentID) (e : EnvID)
    (hnd : st.possibleAgents.Nodup)
    (hsub : ∀ s : S, E.agentsOf s ⊆ st.possibleAgents) :
    e ∈ dkeys ((dlookup (syncStep E st actions).2.observation a).getD []) ↔
      (e < st.envs.length ∧ a ∈ (syncEnvOut E st actions e).recAgents) := by
  rw [dkeys_mem_lookup2]
  have hobs : (syncStep E st actions).2.observation =
      constructBatchResult (buildBatch st.possibleAgents (List.range st.envs.length)
        (fun e => (syncEnvOut E st actions e).recAgents)
        (fun e a => (syncEnvOut E st actions e).obsF a)) := rfl
  rw [hobs, lookup2_cbr_buildBatch _ _ _ _ _ _ hnd (List.nodup_range _)]
  constructor
  · intro h
    by_cases hc : e ∈ List.range st.envs.length
        ∧ a ∈ (syncEnvOut E st actions e).recAgents ∧ a ∈ st.possibleAgents
    · exact ⟨List.mem_range.mp hc.1, hc.2.1⟩
    · rw [if_neg hc] at h
      simp at h
  · intro ⟨h1, h2⟩
    have hps : a ∈ st.possibleAgents :=
      syncEnvStep_recAgents_subset E st.possibleAgents hsub _ _ _ _ h2
    rw [if_pos ⟨List.mem_range.mpr h1, h2, hps⟩]
    simp

theorem asyncStepCrash_false {S O A : Type} [Inhabited S] [Inhabited O] [Inhabited A]
    (E : SubEnv S O A) (need : List Bool) (st : AsyncOrch S)
    (actions : List (AgentID × List (EnvID × A)))
    (hcons : ∀ j, j < st.workers.length →
      (st.workers.getD j default).autoreset = true → st.agents.getD j [] = []) :
    asyncStepCrash
      ((List.range st.workers.length).map (fun i => (asyncStepPair (O := O) E need st actions i).2))
      st.agents st.workers.length = false := by
  unfold asyncStepCrash
  rw [List.any_eq_false]
  intro i hi
  have hilt : i < st.workers.length := List.mem_range.mp hi
  rw [getD_map_range _ _ _ _ hilt]
  unfold asyncStepPair
  rw [workerStepCmd_fromReset]
  cases hf : (st.workers.getD i default).autoreset with
  | true =>
    rw [hcons i hilt hf]
    simp
  | false => simp

theorem asyncStep_eq_ok {S O A : Type} [Inhabited S] [Inhabited O] [Inhabited A]
    (E : SubEnv S O A) (need : List Bool) (st : AsyncOrch S)
    (actions : List (AgentID × List (EnvID × A)))
    (hst : st.astate = AsyncState.DEFAULT)
    (hcons : ∀ j, j < st.workers.length →
      (st.workers.getD j default).autoreset = true → st.agents.getD j [] = []) :
    asyncStep E need st actions = Except.ok (asyncStepBody E need st actions) := by
  unfold asyncStep
  rw [hst]
  show (if asyncStepCrash
      ((List.range st.workers.length).map (fun i => (asyncStepPair (O := O) E need st actions i).2))
      st.agents st.workers.length = true then Except.error PyErr.typeError
    else Except.ok (asyncStepBody E need st actions)) = Except.ok (asyncStepBody E need st actions)
  rw [asyncStepCrash_false E need st actions hcons]
  simp

theorem asyncReset_eq_ok {S O A : Type} [Inhabited S] [Inhabited O]
    (E : SubEnv S O A) (shared : Bool) (st : AsyncOrch S)
    (hst : st.astate = AsyncState.DEFAULT) :
    asyncReset E shared st = Except.ok (asyncResetBody E shared st) := by
  unfold asyncReset
  rw [hst]
  rfl

theorem asyncStepBody_observation_keyset {S O A : Type} [Inhabited S] [Inhabited O] [Inhabited A]
    (E : SubEnv S O A) (need : List Bool) (st : AsyncOrch S)
    (actions : List (AgentID × List (EnvID × A))) (a : AgentID) (e : EnvID)
    (hnd : st.possibleAgents.Nodup)
    (hsub : ∀ j : EnvID, st.agents.getD j [] ⊆ st.possibleAgents)
    (hlen : st.agents.length = st.workers.length) :
    e ∈ dkeys ((dlookup (asyncStepBody E need st actions).2.observation a).getD []) ↔
      e ∈ envsHaveAgents st.agents a := by
  rw [dkeys_mem_lookup2]
  have hobs : (asyncStepBody E need st actions).2.observation =
      constructBatchResult (buildBatch st.possibleAgents (List.range st.workers.length)
        (fun e => st.agents.getD e [])
        (fun e a => ((asyncStepPair E need st actions e).2).obsF a)) := rfl
  rw [hobs, lookup2_cbr_buildBatch _ _ _ _ _ _ hnd (List.nodup_range _),
    mem_envsHaveAgents]
  constructor
  · intro h
    by_cases hc : e ∈ List.range st.workers.length
        ∧ a ∈ st.agents.getD e [] ∧ a ∈ st.possibleAgents
    · exact hc.2.1
    · rw [if_neg hc] at h
      simp at h
  · intro h
    have he : e < st.agents.length := by
      by_contra hge
      rw [getD_out_of_range _ _ _ (Nat.le_of_not_lt hge)] at h
      simp at h
    rw [if_pos ⟨List.mem_range.mpr (hlen ▸ he), h, hsub e h⟩]
    simp

theorem asyncStepBody_lookup2_empty {S O A : Type} [Inhabited S] [Inhabited O] [Inhabited A]
    (E : SubEnv S O A) (need : List Bool) (st : AsyncOrch S)
    (actions : List (AgentID × List (EnvID × A))) (a : AgentID) (i : EnvID)
    (hledger : st.agents.getD i [] = [])
    (hnd : st.possibleAgents.Nodup) :
    lookup2 (asyncStepBody E need st actions).2.observation a i = none
    ∧ lookup2 (asyncStepBody E need st actions).2.reward a i = none
    ∧ lookup2 (asyncStepBody E need st actions).2.termination a i = none
    ∧ lookup2 (asyncStepBody E need st actions).2.truncation a i = none := by
  have hc : ¬(i ∈ List.range st.workers.length
      ∧ a ∈ st.agents.getD i [] ∧ a ∈ st.possibleAgents) := by
    intro h
    rw [hledger] at h
    simp at h
  refine ⟨?_, ?_, ?_, ?_⟩
  · rw [show (asyncStepBody E need st actions).2.observation =
        constructBatchResult (buildBatch st.possibleAgents (List.range st.workers.length)
          (fun e => st.agents.getD e [])
          (fun e a => ((asyncStepPair E need st actions e).2).obsF a)) from rfl,
      lookup2_cbr_buildBatch _ _ _ _ _ _ hnd (List.nodup_range _), if_neg hc]
  · rw [show (asyncStepBody E need st actions).2.reward =
        constructBatchResult (buildBatch st.possibleAgents (List.range st.workers.length)
          (fun e => st.agents.getD e [])
          (fun e a => ((asyncStepPair E need st actions e).2).rewF a)) from rfl,
      lookup2_cbr_buildBatch _ _ _ _ _ _ hnd (List.nodup_range _), if_neg hc]
  · rw [show (asyncStepBody E need st actions).2.termination =
        constructBatchResult (buildBatch st.possibleAgents (List.range st.workers.length)
          (fun e => st.agents.getD e [])
          (fun e a => ((asyncStepPair E need st actions e).2).termF a)) from rfl,
      lookup2_cbr_buildBatch _ _ _ _ _ _ hnd (List.nodup_range _), if_neg hc]
  · rw [show (asyncStepBody E need st actions).2.truncation =
        constructBatchResult (buildBatch st.possibleAgents (List.range st.workers.length)
          (fun e => st.agents.getD e [])
          (fun e a => ((asyncStepPair E need st actions e).2).truncF a)) from rfl,
      lookup2_cbr_buildBatch _ _ _ _ _ _ hnd (List.nodup_range _), if_neg hc]

theorem syncEnvOut_resetAgents_getD {S O A : Type} [Inhabited S] [Inhabited A]
    (E : SubEnv S O A) (st : SyncState S)
    (actions : List (AgentID × List (EnvID × A))) (e : EnvID) :
    ((syncEnvOut E st actions e).resetAgents).getD (E.agentsOf (st.envs.getD e default)) =
      (syncEnvOut E st actions e).recAgents := by
  unfold syncEnvOut
  exact syncEnvStep_resetAgents_getD E _ _ _ _

theorem syncEnvOut_resetAgents_if {S O A : Type} [Inhabited S] [Inhabited A]
    (E : SubEnv S O A) (st : SyncState S)
    (actions : List (AgentID × List (EnvID × A))) (e : EnvID) (X : List AgentID) :
    ((syncEnvOut E st actions e).resetAgents).getD X =
      if st.autoresetEnvs.getD e false then E.agentsOf (syncEnvOut E st actions e).newState
      else X := by
  unfold syncEnvOut
  exact syncEnvStep_resetAgents_if E _ _ _ _ _

theorem walkChain_ends_at_base {S : Type} (chain : PyEnv S) (b : Bool) :
    ∃ s : S, (walkChain chain b).2 = PyEnv.base s := by
  induction chain generalizing b with
  | base s => exact ⟨s, rfl⟩
  | wrap f inner ih => exact ih _

theorem toyLive_agents_subset : ∀ s : Nat, toyLive.agentsOf s ⊆ ["p0"] := by
  intro s a ha
  simpa [toyLive] using ha

theorem toyDying_agents_subset : ∀ s : Nat, toyDying.agentsOf s ⊆ ["p0"] := by
  intro s a ha
  simp only [toyDying] at ha
  by_cases h : s = 0
  · simp [h] at ha
    simp [ha]
  · simp [h] at ha

theorem orchOne_hcons : ∀ j, j < orchOne.workers.length →
    (orchOne.workers.getD j default).autoreset = true → orchOne.agents.getD j [] = [] := by
  intro j hj hf
  have hj0 : j = 0 := Nat.lt_one_iff.mp hj
  subst hj0
  exact absurd hf (by decide)

theorem orchFlagged_hcons : ∀ j, j < orchFlagged.workers.length →
    (orchFlagged.workers.getD j default).autoreset = true →
    orchFlagged.agents.getD j [] = [] := by
  intro j hj _
  have hj0 : j = 0 := Nat.lt_one_iff.mp hj
  subst hj0
  rfl

theorem orchOne_agents_subset : ∀ j : EnvID, orchOne.agents.getD j [] ⊆ ["p0"] := by
  intro j a ha
  cases j with
  | zero => exact ha
  | succ k =>
    rw [getD_out_of_range _ _ _ (Nat.succ_le_succ (Nat.zero_le k))] at ha
    simp at ha

theorem syncAlive_hInv : ∀ e, e < syncAlive.envs.length →
    syncAlive.agents.getD e [] = toyLive.agentsOf (syncAlive.envs.getD e default) := by
  intro e he
  have he0 : e = 0 := Nat.lt_one_iff.mp he
  subst he0
  rfl

/-! ### The claims -/

/-- C1 (amended): on the synchronous runner, each sub-environment whose
autoreset flag is set and whose `_need_autoreset_envs` mark is set (i.e. it
does not carry its own autoreset wrapper) is reset instead of stepped — its
new state is the reset of its old state, independently of the caller-supplied
actions — and for every agent active after that reset the returned reward is
`0`, terminated is `False`, and truncated is `False`.  On the asynchronous
runner the worker of a flagged sub-environment resets it (its piped payload
carries the reset observation and the scalars `0`/`False`/`False`), but the
step's batched results contain no entry at all for that sub-environment: its
fresh agents only enter the ledger. -/
theorem c1_autoreset_amended {S O A : Type} [Inhabited S] [Inhabited O] [Inhabited A]
    (E : SubEnv S O A)
    (st : SyncState S) (actions : List (AgentID × List (EnvID × A))) (e : EnvID)
    (he : e < st.envs.length)
    (hauto : st.autoresetEnvs.getD e false = true)
    (hneed : st.needAutoresetEnvs.getD e true = true)
    (hnd : st.possibleAgents.Nodup)
    (hsub : ∀ s : S, E.agentsOf s ⊆ st.possibleAgents)
    (ast : AsyncOrch S) (need : List Bool)
    (aactions : List (AgentID × List (EnvID × A))) (i : EnvID)
    (hast : ast.astate = AsyncState.DEFAULT)
    (hflag : (ast.workers.getD i default).autoreset = true)
    (hndA : ast.possibleAgents.Nodup)
    (hcons : ∀ j, j < ast.workers.length →
      (ast.workers.getD j default).autoreset = true → ast.agents.getD j [] = [])
    (hiA : i < ast.workers.length) :
    ((syncStep E st actions).1.envs.getD e default = (E.reset (st.envs.getD e default)).1
      ∧ ∀ a, a ∈ E.agentsOf (E.reset (st.envs.getD e default)).1 →
          lookup2 (syncStep E st actions).2.reward a e = some 0
          ∧ lookup2 (syncStep E st actions).2.termination a e = some false
          ∧ lookup2 (syncStep E st actions).2.truncation a e = some false)
    ∧ (exceptIsOk (asyncStep E need ast aactions) = true
      ∧ workerStepCmd (O := O) E (need.getD i true) (ast.workers.getD i default)
          (envActionsFor ast.agents aactions i)
        = (⟨(E.reset (ast.workers.getD i default).env).1,
              (E.agentsOf (E.reset (ast.workers.getD i default).env).1).isEmpty
                && need.getD i true⟩,
            ⟨true, (E.reset (ast.workers.getD i default).env).2,
              fun _ => 0, fun _ => false, fun _ => false⟩)
      ∧ ∀ a, lookup2 (okOf (asyncStep E need ast aactions)).2.observation a i = none
          ∧ lookup2 (okOf (asyncStep E need ast aactions)).2.reward a i = none
          ∧ lookup2 (okOf (asyncStep E need ast aactions)).2.termination a i = none
          ∧ lookup2 (okOf (asyncStep E need ast aactions)).2.truncation a i = none) := by
  have hout : syncEnvOut E st actions e =
      ⟨(E.reset (st.envs.getD e default)).1,
        E.agentsOf (E.reset (st.envs.getD e default)).1,
        (E.reset (st.envs.getD e default)).2, fun _ => 0, fun _ => false, fun _ => false,
        some (E.agentsOf (E.reset (st.envs.getD e default)).1)⟩ := by
    unfold syncEnvOut
    rw [hauto, hneed]
    exact syncEnvStep_reset_branch E _ _
  constructor
  · constructor
    · rw [syncStep_envs_getD E st actions e he, hout]
    · intro a ha
      have hmem : a ∈ (syncEnvOut E st actions e).recAgents := by rw [hout]; exact ha
      have hps : a ∈ st.possibleAgents := hsub _ ha
      have hcond : e ∈ List.range st.envs.length
          ∧ a ∈ (syncEnvOut E st actions e).recAgents ∧ a ∈ st.possibleAgents :=
        ⟨List.mem_range.mpr he, hmem, hps⟩
      refine ⟨?_, ?_, ?_⟩
      · rw [show (syncStep E st actions).2.reward =
            constructBatchResult (buildBatch st.possibleAgents (List.range st.envs.length)
              (fun e => (syncEnvOut E st actions e).recAgents)
              (fun e a => (syncEnvOut E st actions e).rewF a)) from rfl,
          lookup2_cbr_buildBatch _ _ _ _ _ _ hnd (List.nodup_range _), if_pos hcond, hout]
      · rw [show (syncStep E st actions).2.termination =
            constructBatchResult (buildBatch st.possibleAgents (List.range st.envs.length)
              (fun e => (syncEnvOut E st actions e).recAgents)
              (fun e a => (syncEnvOut E st actions e).termF a)) from rfl,
          lookup2_cbr_buildBatch _ _ _ _ _ _ hnd (List.nodup_range _), if_pos hcond, hout]
      · rw [show (syncStep E st actions).2.truncation =
            constructBatchResult (buildBatch st.possibleAgents (List.range st.envs.length)
              (fun e => (syncEnvOut E st actions e).recAgents)
              (fun e a => (syncEnvOut E st actions e).truncF a)) from rfl,
          lookup2_cbr_buildBatch _ _ _ _ _ _ hnd (List.nodup_range _), if_pos hcond, hout]
  · have hok := asyncStep_eq_ok E need ast aactions hast hcons
    refine ⟨by rw [hok]; rfl, ?_, ?_⟩
    · rcases hww : ast.workers.getD i default with ⟨wenv, wauto⟩
      have hflag' : wauto = true := by rw [hww] at hflag; exact hflag
      subst hflag'
      rfl
    · intro a
      have h := asyncStepBody_lookup2_empty E need ast aactions a i (hcons i hiA hflag) hndA
      rw [hok]
      simp only [okOf]
      exact h

/-- C1 counterexample to the claim as stated: on the asynchronous runner, a
sub-environment flagged for autoreset is reset by its worker, and agent `p0`
is active after that reset (the refreshed ledger holds it), yet the step's
returned reward for `p0` has no entry for that environment at all — it is
absent, not `0` (likewise terminated/truncated). -/
theorem c1_counterexample :
    exceptIsOk (asyncStep toyLive [true] orchFlagged []) = true
    ∧ (okOf (asyncStep toyLive [true] orchFlagged [])).1.agents = [["p0"]]
    ∧ lookup2 (okOf (asyncStep toyLive [true] orchFlagged [])).2.reward "p0" 0 = none
    ∧ lookup2 (okOf (asyncStep toyLive [true] orchFlagged [])).2.termination "p0" 0 = none
    ∧ lookup2 (okOf (asyncStep toyLive [true] orchFlagged [])).2.truncation "p0" 0 = none := by
  decide

theorem c1_autoreset_amended_witness :
    (syncStep toyDying syncFlagged []).1.envs.getD 0 default = 0
    ∧ lookup2 (syncStep toyDying syncFlagged []).2.reward "p0" 0 = some 0
    ∧ lookup2 (syncStep toyDying syncFlagged []).2.termination "p0" 0 = some false
    ∧ exceptIsOk (asyncStep toyDying [true] orchFlagged []) = true
    ∧ lookup2 (okOf (asyncStep toyDying [true] orchFlagged [])).2.reward "p0" 0 = none := by
  have h := c1_autoreset_amended toyDying syncFlagged [] 0 (by decide) (by decide)
    (by decide) (by decide) toyDying_agents_subset orchFlagged [true] [] 0 rfl
    (by decide) (by decide) orchFlagged_hcons (by decide)
  exact ⟨h.1.1, (h.1.2 "p0" (by decide)).1, (h.1.2 "p0" (by decide)).2.1,
    h.2.1, (h.2.2.2 "p0").2.1⟩

/-- C2 (amended): the key set of the returned `observation[a]` equals the
environments whose agent set *at the time their results were produced*
contains `a` — on the synchronous runner that is `envs_have_agents[a]`
recomputed from the post-call `agents_old` snapshot (the pre-step agent set of
each stepped environment, the post-reset set of each autoreset one), and on
the asynchronous runner it is `envs_have_agents[a]` over the pre-call ledger —
not, as the claim states, over the post-call ledger. -/
theorem c2_keyset_amended {S O A : Type} [Inhabited S] [Inhabited O] [Inhabited A]
    (E : SubEnv S O A)
    (st : SyncState S) (actions : List (AgentID × List (EnvID × A)))
    (hnd : st.possibleAgents.Nodup)
    (hsub : ∀ s : S, E.agentsOf s ⊆ st.possibleAgents)
    (hInv : ∀ e, e < st.envs.length →
      st.agents.getD e [] = E.agentsOf (st.envs.getD e default))
    (ast : AsyncOrch S) (need : List Bool)
    (aactions : List (AgentID × List (EnvID × A)))
    (hast : ast.astate = AsyncState.DEFAULT)
    (hndA : ast.possibleAgents.Nodup)
    (hsubA : ∀ j : EnvID, ast.agents.getD j [] ⊆ ast.possibleAgents)
    (hlenA : ast.agents.length = ast.workers.length)
    (hcons : ∀ j, j < ast.workers.length →
      (ast.workers.getD j default).autoreset = true → ast.agents.getD j [] = []) :
    (∀ a e, e ∈ dkeys ((dlookup (syncStep E st actions).2.observation a).getD [])
        ↔ e ∈ envsHaveAgents (syncStep E st actions).1.agentsOld a)
    ∧ (exceptIsOk (asyncStep E need ast aactions) = true
      ∧ ∀ a e,
          e ∈ dkeys ((dlookup (okOf (asyncStep E need ast aactions)).2.observation a).getD [])
          ↔ e ∈ envsHaveAgents ast.agents a) := by
  constructor
  · intro a e
    rw [syncStep_observation_keyset E st actions a e hnd hsub, mem_envsHaveAgents]
    constructor
    · intro ⟨h1, h2⟩
      rw [syncStep_agentsOld_getD E st actions e h1, hInv e h1,
        syncEnvOut_resetAgents_getD]
      exact h2
    · intro h
      by_cases h1 : e < st.envs.length
      · rw [syncStep_agentsOld_getD E st actions e h1, hInv e h1,
          syncEnvOut_resetAgents_getD] at h
        exact ⟨h1, h⟩
      · rw [syncStep_agentsOld_getD_oob E st actions e (Nat.le_of_not_lt h1)] at h
        simp at h
  · have hok := asyncStep_eq_ok E need ast aactions hast hcons
    refine ⟨by rw [hok]; rfl, ?_⟩
    intro a e
    rw [hok]
    simp only [okOf]
    exact asyncStepBody_observation_keyset E need ast aactions a e hndA hsubA hlenA

/-- C2 counterexample to the claim as stated: on the synchronous runner, when
agent `p0` terminates during the step, `observation[p0]` still keys that
environment (the parallel API returns results for the agents that acted),
while `envs_have_agents[p0]` recomputed from the post-step ledger is empty. -/
theorem c2_counterexample :
    0 ∈ dkeys ((dlookup (syncStep toyDying syncAlive [("p0", [(0, 0)])]).2.observation "p0").getD [])
    ∧ envsHaveAgents (syncStep toyDying syncAlive [("p0", [(0, 0)])]).1.agents "p0" = [] := by
  decide

theorem c2_keyset_amended_witness :
    (0 ∈ dkeys ((dlookup (syncStep toyLive syncAlive [("p0", [(0, 0)])]).2.observation "p0").getD [])
      ↔ 0 ∈ envsHaveAgents (syncStep toyLive syncAlive [("p0", [(0, 0)])]).1.agentsOld "p0")
    ∧ exceptIsOk (asyncStep toyLive [true] orchOne []) = true := by
  have h := c2_keyset_amended toyLive syncAlive [("p0", [(0, 0)])] (by decide)
    toyLive_agents_subset syncAlive_hInv orchOne [true] [] rfl (by decide)
    orchOne_agents_subset rfl orchOne_hcons
  exact ⟨h.1 "p0" 0, h.2.1⟩

/-- C5 (amended): after an asynchronous `step`, `agents_old` equals the
ledger exactly as it was immediately before the call.  After a synchronous
`step`, `agents_old` equals the pre-call ledger only for environments that
were not flagged for autoreset; for a flagged environment it is overridden
(`self.agents_old |= reset_agents`) with that environment's post-call agent
set.  After a synchronous `reset`, `agents_old` is the post-reset ledger, and
after an asynchronous `reset` it maps every environment to the empty
sequence — in neither case the pre-call snapshot. -/
theorem c5_agents_old_amended {S O A : Type} [Inhabited S] [Inhabited O] [Inhabited A]
    (E : SubEnv S O A)
    (st : SyncState S) (actions : List (AgentID × List (EnvID × A))) (e : EnvID)
    (he : e < st.envs.length)
    (stR : SyncState S)
    (ast : AsyncOrch S) (need : List Bool)
    (aactions : List (AgentID × List (EnvID × A)))
    (hast : ast.astate = AsyncState.DEFAULT)
    (hcons : ∀ j, j < ast.workers.length →
      (ast.workers.getD j default).autoreset = true → ast.agents.getD j [] = [])
    (astR : AsyncOrch S) (shared : Bool) (hastR : astR.astate = AsyncState.DEFAULT) :
    ((syncStep E st actions).1.agentsOld.getD e [] =
        if st.autoresetEnvs.getD e false
        then E.agentsOf ((syncStep E st actions).1.envs.getD e default)
        else st.agents.getD e [])
    ∧ (syncReset E stR).1.agentsOld = (syncReset E stR).1.agents
    ∧ (exceptIsOk (asyncStep E need ast aactions) = true
        ∧ (okOf (asyncStep E need ast aactions)).1.agentsOld = ast.agents)
    ∧ (exceptIsOk (asyncReset E shared astR) = true
        ∧ (okOf (asyncReset E shared astR)).1.agentsOld
            = List.replicate astR.workers.length []) := by
  refine ⟨?_, rfl, ?_, ?_⟩
  · rw [syncStep_agentsOld_getD E st actions e he, syncEnvOut_resetAgents_if,
      syncStep_envs_getD E st actions e he]
  · have hok := asyncStep_eq_ok E need ast aactions hast hcons
    exact ⟨by rw [hok]; rfl, by rw [hok]; rfl⟩
  · have hok := asyncReset_eq_ok E shared astR hastR
    exact ⟨by rw [hok]; rfl, by rw [hok]; rfl⟩

/-- C5 counterexample to the claim as stated: on the synchronous runner, after
a step in which the flagged sub-environment is autoreset, `agents_old` holds
that environment's fresh post-reset agent set `["p0"]`, not the pre-call
ledger entry `[]`. -/
theorem c5_counterexample :
    (syncStep toyDying syncFlagged []).1.agentsOld = [["p0"]]
    ∧ syncFlagged.agents = [[]]
    ∧ (syncStep toyDying syncFlagged []).1.agentsOld ≠ syncFlagged.agents := by
  decide

theorem c5_agents_old_amended_witness :
    (syncStep toyLive syncAlive []).1.agentsOld.getD 0 [] = syncAlive.agents.getD 0 []
    ∧ (syncReset toyLive syncAlive).1.agentsOld = (syncReset toyLive syncAlive).1.agents
    ∧ (okOf (asyncStep toyLive [] orchOne [])).1.agentsOld = orchOne.agents
    ∧ (okOf (asyncReset toyLive false orchOne)).1.agentsOld = List.replicate 1 [] := by
  have h := c5_agents_old_amended toyLive syncAlive [] 0 (by decide) syncAlive
    orchOne [] [] rfl orchOne_hcons orchOne false rfl
  exact ⟨h.1, h.2.1, h.2.2.1.2, h.2.2.2.2⟩

/-- C3: after every reset and every step, for every agent `a` and every
environment id `e`, `e` is a member of `envs_have_agents[a]` if and only if
`a` is a member of `agents[e]` — the derived index is exactly the inverse
relation of the ledger (and this holds for the recomputation from any ledger
value, hence equally for the async runner's ledger). -/
theorem c3_inverse_relation {S O A : Type} [Inhabited S] [Inhabited O] [Inhabited A]
    (E : SubEnv S O A) (st : SyncState S)
    (actions : List (AgentID × List (EnvID × A)))
    (ledger : List (List AgentID)) (a : AgentID) (e : EnvID) :
    (e ∈ envsHaveAgents (syncReset E st).1.agents a
        ↔ a ∈ (syncReset E st).1.agents.getD e [])
    ∧ (e ∈ envsHaveAgents (syncStep E st actions).1.agents a
        ↔ a ∈ (syncStep E st actions).1.agents.getD e [])
    ∧ (e ∈ envsHaveAgents ledger a ↔ a ∈ ledger.getD e []) :=
  ⟨mem_envsHaveAgents _ _ _, mem_envsHaveAgents _ _ _, mem_envsHaveAgents _ _ _⟩

/-- C4: evaluation at the failing input (two workers, worker 0 raises during a
collective operation, the error queue holds its tagged exception).  For the
`reset` and `call` awaits the orchestrator drains exactly one error-queue
entry per failed worker and re-raises the last drained error; but the `step`
await never consults the error queue: it returns successfully, surfacing the
succeeding worker's results (key `1` present, key `0` absent) instead of
re-raising the failure. -/
theorem c4_error_drain_eval :
    exceptErrOf (resetAwaitOutcome (O := Nat) orchAwaitReset
        [none, some (fun _ => 100)] failQueue)
      = some (PyErr.workerError 0 "RuntimeError: boom")
    ∧ exceptErrOf (callOutcome orchAwaitCall [none, some 5] failQueue)
      = some (PyErr.workerError 0 "RuntimeError: boom")
    ∧ drainErrors failQueue [false, true] = failQueue
    ∧ exceptIsOk (stepAwaitOutcome orchAwaitStep [none, some okPayload] failQueue) = true
    ∧ lookup2 (okOf (stepAwaitOutcome orchAwaitStep [none, some okPayload] failQueue)).observation
        "p0" 1 = some 0
    ∧ lookup2 (okOf (stepAwaitOutcome orchAwaitStep [none, some okPayload] failQueue)).observation
        "p0" 0 = none := by decide

/-- C6: evaluation at the failing input.  `SyncVectorParallelEnv.reset`
rebuilds the autoreset flags to `False`, and the async worker clears its flag
on a `reset` command when shared memory is enabled; but with shared memory
disabled the worker's `autoreset = False` statement is skipped (it sits inside
the `if shared_memory_observation:` block), the flag survives the reset, and
the very next `step` command auto-resets the sub-environment instead of
stepping it. -/
theorem c6_reset_flag_eval :
    (syncReset toyDying syncFlagged).1.autoresetEnvs = [false]
    ∧ (workerResetCmd (O := Nat) toyDying true ⟨5, true⟩).1.autoreset = false
    ∧ (workerResetCmd (O := Nat) toyDying false ⟨5, true⟩).1.autoreset = true
    ∧ ((workerStepCmd toyDying true
          (workerResetCmd (O := Nat) toyDying false ⟨5, true⟩).1 []).2).fromReset = true := by
  decide

/-- C7: beginning any collective operation (`reset`, `step`, `call`) while the
execution state is not `DEFAULT` raises `AlreadyPendingCallError` carrying the
in-flight operation's value, and awaiting a `step` (respectively `reset`,
`call`) whose begin is not pending raises `NoAsyncCallError` carrying the
expected operation's value. -/
theorem c7_state_machine (s1 s2 s3 s4 s5 s6 : AsyncState)
    (h1 : s1 ≠ AsyncState.DEFAULT) (h2 : s2 ≠ AsyncState.DEFAULT)
    (h3 : s3 ≠ AsyncState.DEFAULT) (h4 : s4 ≠ AsyncState.WAITING_STEP)
    (h5 : s5 ≠ AsyncState.WAITING_RESET) (h6 : s6 ≠ AsyncState.WAITING_CALL) :
    stepAsyncCheck s1 = Except.error (PyErr.alreadyPendingCall s1.value)
    ∧ resetAsyncCheck s2 = Except.error (PyErr.alreadyPendingCall s2.value)
    ∧ callAsyncCheck s3 = Except.error (PyErr.alreadyPendingCall s3.value)
    ∧ stepAwaitCheck s4 = Except.error (PyErr.noAsyncCall "step")
    ∧ resetAwaitCheck s5 = Except.error (PyErr.noAsyncCall "reset")
    ∧ callAwaitCheck s6 = Except.error (PyErr.noAsyncCall "call") := by
  refine ⟨?_, ?_, ?_, ?_, ?_, ?_⟩ <;>
    simp [stepAsyncCheck, resetAsyncCheck, callAsyncCheck, stepAwaitCheck,
      resetAwaitCheck, callAwaitCheck, AsyncState.value, h1, h2, h3, h4, h5, h6]

theorem c7_state_machine_witness :
    stepAsyncCheck AsyncState.WAITING_STEP
      = Except.error (PyErr.alreadyPendingCall "step")
    ∧ stepAwaitCheck AsyncState.DEFAULT = Except.error (PyErr.noAsyncCall "step") :=
  ⟨(c7_state_machine AsyncState.WAITING_STEP AsyncState.WAITING_RESET
      AsyncState.WAITING_CALL AsyncState.DEFAULT AsyncState.DEFAULT AsyncState.DEFAULT
      (by decide) (by decide) (by decide) (by decide) (by decide) (by decide)).1,
    (c7_state_machine AsyncState.WAITING_STEP AsyncState.WAITING_RESET
      AsyncState.WAITING_CALL AsyncState.DEFAULT AsyncState.DEFAULT AsyncState.DEFAULT
      (by decide) (by decide) (by decide) (by decide) (by decide) (by decide)).2.2.2.1⟩

/-- C8: evaluation at the failing input (two sub-environments whose reset
observations differ: slot 0 holds `100`, slot 1 holds `101`).  With shared
memory enabled `_reset_await` reads the stale loop index `num_envs - 1`, so
environment 0's entry is the content of slot 1 (`101`) rather than of its own
slot 0 (`100`); with shared memory disabled the entry is correct.  The
agent-major shape itself (exactly the post-reset holders of the agent are
keyed) does hold. -/
theorem c8_reset_shared_slot_eval :
    exceptIsOk (asyncReset toyLive true orchTwo) = true
    ∧ lookup2 (okOf (asyncReset toyLive true orchTwo)).2 "p0" 0 = some 101
    ∧ lookup2 (okOf (asyncReset toyLive true orchTwo)).2 "p0" 1 = some 101
    ∧ (workerResetCmd (O := Nat) toyLive true (orchTwo.workers.getD 0 default)).2 "p0" = 100
    ∧ lookup2 (okOf (asyncReset toyLive false orchTwo)).2 "p0" 0 = some 100
    ∧ dkeys ((dlookup (okOf (asyncReset toyLive true orchTwo)).2 "p0").getD []) = [0, 1] := by
  decide

/-- C9: evaluation at the failing input (a sub-environment wrapped in
`AutoResetParallelEnvWrapper`).  The worker's chain walk computes
`need_autoreset = False` exactly when the wrapper is present, but it reassigns
`env` while walking, so the binding it leaves behind — against which every
later `reset`/`step` command runs — is the innermost, fully unwrapped
environment: the wrapper's own autoreset behaviour can never execute.  The
sync runner's `_mark_envs` walks the same chain through a local variable and
only returns the flag. -/
theorem c9_worker_unwrap_eval :
    workerMark (PyEnv.wrap true (PyEnv.base (7 : Nat))) = (false, PyEnv.base 7)
    ∧ workerMark (PyEnv.wrap false (PyEnv.base (7 : Nat))) = (true, PyEnv.base 7)
    ∧ syncMarkEnv (PyEnv.wrap true (PyEnv.base (7 : Nat))) = false
    ∧ ∀ chain : PyEnv Nat, ∃ s : Nat, (workerMark chain).2 = PyEnv.base s :=
  ⟨by decide, by decide, by decide, fun chain => walkChain_ends_at_base chain true⟩

/-- C10: `SyncVectorParallelEnv.__getattr__` returns the tuple of the
attribute's per-sub-environment values exactly when the name does not start
with an underscore, is neither `"state_spaces"` nor `"envs"`, and every
sub-environment has the attribute; in every other case it raises
`AttributeError` — in particular `"state_spaces"` and every
underscore-prefixed name always raise. -/
theorem c10_getattr (envs : List SubEnvAttrs) (name : String) :
    (syncGetattr envs name = GetattrOutcome.tupleOf (envs.map (fun o => pyGetattrVal o name))
      ↔ (startsWithUnderscore name = false ∧ name ≠ "state_spaces" ∧ name ≠ "envs"
          ∧ ∀ o ∈ envs, pyHasattr o name = true))
    ∧ syncGetattr envs "state_spaces" = GetattrOutcome.attributeError
    ∧ (startsWithUnderscore name = true → syncGetattr envs name = GetattrOutcome.attributeError) := by
  refine ⟨⟨?_, ?_⟩, ?_, ?_⟩
  · intro h
    by_cases h1 : startsWithUnderscore name
    · rw [syncGetattr, if_pos h1] at h
      exact absurd h (by simp)
    · by_cases h2 : name = "state_spaces"
      · rw [syncGetattr, if_neg h1, if_pos h2] at h
        exact absurd h (by simp)
      · by_cases h3 : name ≠ "envs" ∧ envs.all (fun o => pyHasattr o name)
        · refine ⟨by simpa using h1, h2, h3.1, ?_⟩
          intro o ho
          exact List.all_eq_true.mp h3.2 o ho
        · rw [syncGetattr, if_neg h1, if_neg h2, if_neg h3] at h
          exact absurd h (by simp)
  · rintro ⟨h1, h2, h3, h4⟩
    rw [syncGetattr, if_neg (by simp [h1]), if_neg h2,
      if_pos ⟨h3, List.all_eq_true.mpr h4⟩]
  · rw [syncGetattr, if_neg (by decide), if_pos rfl]
  · intro h1
    rw [syncGetattr, if_pos h1]

theorem c10_getattr_witness :
    syncGetattr [⟨[("metadata", 5)]⟩] "metadata" = GetattrOutcome.tupleOf [5]
    ∧ syncGetattr [⟨[("_private", 1)]⟩] "_private" = GetattrOutcome.attributeError
    ∧ syncGetattr [⟨[("state_spaces", 2)]⟩] "state_spaces" = GetattrOutcome.attributeError :=
  ⟨(c10_getattr [⟨[("metadata", 5)]⟩] "metadata").1.mpr (by decide),
    (c10_getattr [⟨[("_private", 1)]⟩] "_private").2.2 (by decide),
    (c10_getattr [⟨[("state_spaces", 2)]⟩] "anything").2.1⟩

end CoMas
